import Mathlib

/-!
# Verification of the YOLOX ONNX demo detection pipeline

Shallow embedding of `426_YOLOX-Body-Head-Hand/demo/demo_yolox_onnx.py`.
Python floats are modelled as exact rationals (`ℚ`); the operations the
claims are about (comparisons against a threshold, `max`/`min` clamping,
multiplication and division by image/model dimensions, truncation by
Python `int(...)`) are all exact on the dyadic values the spec exercises.
NumPy boolean-mask selection is modelled by `maskSelect`, and the
`for box, score in zip(...)` append loop by `postLoop`.
-/

/-- Python `int(q)` on a float: truncation toward zero (floor for
nonnegative arguments, ceiling for negative ones). -/
def truncQ (q : ℚ) : ℤ := if 0 ≤ q then ⌊q⌋ else ⌈q⌉

theorem truncQ_nonneg {q : ℚ} (h : 0 ≤ q) : 0 ≤ truncQ q := by
  simpa [truncQ, h] using Int.floor_nonneg.mpr h

theorem truncQ_le {q : ℚ} {n : ℤ} (h : q ≤ (n : ℚ)) : truncQ q ≤ n := by
  unfold truncQ
  split
  · exact_mod_cast Int.floor_le_floor h |>.trans_eq (Int.floor_intCast n)
  · exact_mod_cast Int.ceil_le_ceil h |>.trans_eq (Int.ceil_intCast n)

/-- One row of the raw output tensor `float32[N,7]`:
`[batchno, classid, score, x1, y1, x2, y2]`. -/
structure RawRow where
  batchno : ℚ
  classid : ℚ
  score : ℚ
  x1 : ℚ
  y1 : ℚ
  x2 : ℚ
  y2 : ℚ
deriving DecidableEq, Repr

/-- The state a `YOLOXONNX` pipeline instance carries that the
postprocessing logic reads: the score threshold fixed at construction,
and the model input spatial dimensions discovered from the loaded model
(`self.input_shapes[0][2]` = height, `self.input_shapes[0][3]` = width). -/
structure YOLOXConfig where
  class_score_th : ℚ
  Hmodel : ℚ
  Wmodel : ℚ
deriving DecidableEq, Repr

/-- NumPy boolean-mask indexing `arr[keep_idxs]`: keep the elements whose
mask entry is `true`, preserving order. -/
def maskSelect {α : Type} : List α → List Bool → List α
  | [], _ => []
  | _, [] => []
  | a :: as, m :: ms => if m then a :: maskSelect as ms else maskSelect as ms

/-- The elementwise comparison `scores[:, 0] > self.class_score_th`
applied to one row. -/
def keepRow (cfg : YOLOXConfig) (r : RawRow) : Bool :=
  decide (cfg.class_score_th < r.score)

/-- The body of the `for box, score in zip(boxes_keep, scores_keep)` loop:
`class_id = int(box[1])`, the four scaled coordinates, and the appended
box `[x_min, y_min, x_max, y_max, class_id]`. -/
def scaleRow (cfg : YOLOXConfig) (image_height image_width : ℕ) (box : RawRow) : List ℤ :=
  let class_id : ℤ := truncQ box.classid
  let x_min : ℤ := truncQ (max 0 box.x1 * image_width / cfg.Wmodel)
  let y_min : ℤ := truncQ (max 0 box.y1 * image_height / cfg.Hmodel)
  let x_max : ℤ := truncQ (min box.x2 cfg.Wmodel * image_width / cfg.Wmodel)
  let y_max : ℤ := truncQ (min box.y2 cfg.Hmodel * image_height / cfg.Hmodel)
  [x_min, y_min, x_max, y_max, class_id]

/-- The append loop over `zip(boxes_keep, scores_keep)`: each iteration
appends the scaled box to `result_boxes` and the raw score to
`result_scores`, in row order. -/
def postLoop (cfg : YOLOXConfig) (image_height image_width : ℕ) :
    List (RawRow × ℚ) → List (List ℤ) × List ℚ
  | [] => ([], [])
  | (box, score) :: rest =>
    let tail := postLoop cfg image_height image_width rest
    (scaleRow cfg image_height image_width box :: tail.1, score :: tail.2)

/-- `YOLOXONNX._postprocess`: mirrors the Python body, including the
`if len(boxes) > 0` and `if len(boxes_keep) > 0` guards, the score
extraction `boxes[:, 2:3]`, the boolean-mask filtering, and the append
loop. Returns `(result_boxes, result_scores)`. -/
def _postprocess (cfg : YOLOXConfig) (image_height image_width : ℕ)
    (boxes : List RawRow) : List (List ℤ) × List ℚ :=
  if boxes.length > 0 then
    let scores : List ℚ := boxes.map RawRow.score
    let keep_idxs : List Bool := scores.map (fun s => decide (cfg.class_score_th < s))
    let scores_keep : List ℚ := maskSelect scores keep_idxs
    let boxes_keep : List RawRow := maskSelect boxes keep_idxs
    if boxes_keep.length > 0 then
      postLoop cfg image_height image_width (boxes_keep.zip scores_keep)
    else ([], [])
  else ([], [])

/-- The caller's image: shape plus pixel payload (8-bit samples, HWC). -/
structure Image where
  height : ℕ
  width : ℕ
  pixels : List ℕ
deriving DecidableEq, Repr

/-- `YOLOXONNX.__call__`: deep-copies the caller's image, preprocesses
the copy, runs inference (the ONNX session is an external black box,
passed here as the pure function `session_run` from the preprocessed
copy to the raw output rows), and postprocesses against the copied
image's dimensions. The second component of the result is the caller's
image buffer as it stands after the call: no step of the body writes to
it (`copy.deepcopy` gives the pipeline an independent value, and
`cv2.resize` / `transpose` / `ascontiguousarray` allocate fresh arrays). -/
def YOLOXONNX_call (cfg : YOLOXConfig) (session_run : Image → List RawRow)
    (image : Image) : (List (List ℤ) × List ℚ) × Image :=
  let temp_image := image
  let boxes := session_run temp_image
  let result := _postprocess cfg temp_image.height temp_image.width boxes
  (result, image)

/-- The per-coordinate transform as the spec's §4.3 words it: clamp to
the closed interval `[0, model_dimension]` on BOTH sides, then rescale
and truncate. Stated from the spec, to be compared with `scaleRow`. -/
def spec_scaleRow (cfg : YOLOXConfig) (image_height image_width : ℕ) (box : RawRow) : List ℤ :=
  let clamp : ℚ → ℚ → ℚ := fun v hi => min (max 0 v) hi
  [truncQ (clamp box.x1 cfg.Wmodel * image_width / cfg.Wmodel),
   truncQ (clamp box.y1 cfg.Hmodel * image_height / cfg.Hmodel),
   truncQ (clamp box.x2 cfg.Wmodel * image_width / cfg.Wmodel),
   truncQ (clamp box.y2 cfg.Hmodel * image_height / cfg.Hmodel),
   truncQ box.classid]

/-! ## Structural lemmas: the mask/zip machinery computes a filter-map -/

theorem maskSelect_map_self {α : Type} (p : α → Bool) :
    ∀ l : List α, maskSelect l (l.map p) = l.filter p
  | [] => rfl
  | a :: as => by
    cases h : p a <;>
      simp [maskSelect, List.filter_cons, h, maskSelect_map_self p as]

theorem maskSelect_map_map {α β : Type} (f : α → β) (p : α → Bool) :
    ∀ l : List α, maskSelect (l.map f) (l.map p) = (l.filter p).map f
  | [] => rfl
  | a :: as => by
    cases h : p a <;>
      simp [maskSelect, List.filter_cons, h, maskSelect_map_map f p as]

theorem postLoop_zip_map (cfg : YOLOXConfig) (ih iw : ℕ) :
    ∀ l : List RawRow,
      postLoop cfg ih iw (l.zip (l.map RawRow.score)) =
        (l.map (scaleRow cfg ih iw), l.map RawRow.score)
  | [] => rfl
  | a :: as => by
    rw [List.map_cons, List.zip_cons_cons]
    simp only [postLoop, postLoop_zip_map cfg ih iw as, List.map_cons]

/-- Master characterization: `_postprocess` returns exactly the
threshold-surviving rows, in order, each box scaled by `scaleRow` and
each score passed through unchanged. -/
theorem postprocess_filter_map (cfg : YOLOXConfig) (ih iw : ℕ)
    (boxes : List RawRow) :
    _postprocess cfg ih iw boxes =
      ((boxes.filter (keepRow cfg)).map (scaleRow cfg ih iw),
       (boxes.filter (keepRow cfg)).map RawRow.score) := by
  cases boxes with
  | nil => simp [_postprocess]
  | cons b bs =>
    unfold _postprocess
    have hfun : ((fun s => decide (cfg.class_score_th < s)) ∘ RawRow.score) =
        keepRow cfg := rfl
    simp only [List.length_cons, Nat.zero_lt_succ, gt_iff_lt, if_true,
      List.map_map, hfun]
    rw [maskSelect_map_self (keepRow cfg) (b :: bs),
      maskSelect_map_map RawRow.score (keepRow cfg) (b :: bs),
      postLoop_zip_map cfg ih iw ((b :: bs).filter (keepRow cfg))]
    by_cases hk : 0 < ((b :: bs).filter (keepRow cfg)).length
    · rw [if_pos hk]
    · rw [if_neg hk]
      have hnil : (b :: bs).filter (keepRow cfg) = [] :=
        List.length_eq_zero.mp (Nat.eq_zero_of_not_pos hk)
      simp [hnil]

/-! ## Bound lemmas for the scaled coordinates -/

theorem trunc_scale_nonneg {m : ℚ} (hm : 0 < m) (d : ℕ) (x : ℚ) :
    0 ≤ truncQ (max 0 x * (d : ℚ) / m) :=
  truncQ_nonneg (div_nonneg (mul_nonneg (le_max_left 0 x) (Nat.cast_nonneg d)) hm.le)

theorem trunc_scale_le {m : ℚ} (hm : 0 < m) (d : ℕ) (x : ℚ) :
    truncQ (min x m * (d : ℚ) / m) ≤ (d : ℤ) := by
  apply truncQ_le
  push_cast
  rw [div_le_iff₀ hm]
  calc min x m * (d : ℚ) ≤ m * d :=
        mul_le_mul_of_nonneg_right (min_le_right x m) (Nat.cast_nonneg d)
    _ = (d : ℚ) * m := mul_comm _ _

theorem scaleRow_bounds (cfg : YOLOXConfig) (ih iw : ℕ)
    (hW : 0 < cfg.Wmodel) (hH : 0 < cfg.Hmodel) (b : RawRow) :
    0 ≤ (scaleRow cfg ih iw b).getD 0 0 ∧
    0 ≤ (scaleRow cfg ih iw b).getD 1 0 ∧
    (scaleRow cfg ih iw b).getD 2 0 ≤ (iw : ℤ) ∧
    (scaleRow cfg ih iw b).getD 3 0 ≤ (ih : ℤ) := by
  refine ⟨?_, ?_, ?_, ?_⟩ <;>
    simp only [scaleRow, List.getD_cons_zero, List.getD_cons_succ]
  · exact trunc_scale_nonneg hW iw b.x1
  · exact trunc_scale_nonneg hH ih b.y1
  · exact trunc_scale_le hW iw b.x2
  · exact trunc_scale_le hH ih b.y2

/-! ## The claims -/

/-- C3: a raw row is kept exactly when its score (row index 2) is
strictly greater than `class_score_th`: the returned scores are exactly
the scores of the rows passing the strict comparison, in order; and a
row whose score equals the threshold exactly (here `0.35`) is dropped. -/
theorem C3_threshold_strict :
    (∀ (cfg : YOLOXConfig) (ih iw : ℕ) (boxes : List RawRow),
      (_postprocess cfg ih iw boxes).2 =
        (boxes.filter (fun r => decide (cfg.class_score_th < r.score))).map RawRow.score) ∧
    _postprocess ⟨7/20, 256, 320⟩ 480 640 [⟨0, 1, 7/20, 10, 20, 100, 200⟩] = ([], []) := by
  constructor
  · intro cfg ih iw boxes
    rw [postprocess_filter_map]
    rfl
  · rw [postprocess_filter_map]
    norm_num [keepRow, List.filter_cons]

/-- C4: the concrete scenario of the spec: raw row
`[0, 1, 0.9, 10, 20, 100, 200]` with model input 320×256, image 640×480
and threshold 0.35 is kept and produces the box `[20, 37, 200, 375]`
with class id 1 and score 0.9. -/
theorem C4_example_row :
    _postprocess ⟨7/20, 256, 320⟩ 480 640 [⟨0, 1, 9/10, 10, 20, 100, 200⟩] =
      ([[20, 37, 200, 375, 1]], [9/10]) := by
  rw [postprocess_filter_map]
  norm_num [keepRow, List.filter_cons, scaleRow, truncQ]

/-- C5: the two returned sequences are always parallel:
`len(boxes) == len(scores)`, both at the `_postprocess` level and at the
pipeline `__call__` level. -/
theorem C5_parallel_lengths :
    ∀ (cfg : YOLOXConfig) (ih iw : ℕ) (boxes : List RawRow)
      (run : Image → List RawRow) (img : Image),
      ((_postprocess cfg ih iw boxes).1).length =
        ((_postprocess cfg ih iw boxes).2).length ∧
      (((YOLOXONNX_call cfg run img).1).1).length =
        (((YOLOXONNX_call cfg run img).1).2).length := by
  intro cfg ih iw boxes run img
  refine ⟨?_, ?_⟩ <;>
    simp only [YOLOXONNX_call, postprocess_filter_map, List.length_map]

/-- C6: when every row scores at or below the threshold (in particular
when the raw output tensor is empty), `_postprocess` returns two empty
sequences; an empty result is an ordinary value, not an error. -/
theorem C6_empty_is_valid (cfg : YOLOXConfig) (ih iw : ℕ) (boxes : List RawRow)
    (h : ∀ r ∈ boxes, r.score ≤ cfg.class_score_th) :
    _postprocess cfg ih iw boxes = ([], []) := by
  rw [postprocess_filter_map]
  have hnil : boxes.filter (keepRow cfg) = [] := by
    apply List.filter_eq_nil_iff.mpr
    intro r hr
    simp [keepRow, not_lt.mpr (h r hr)]
  simp [hnil]

/-- C6 witness: a single below-threshold row yields two empty sequences. -/
theorem C6_empty_is_valid_witness :
    _postprocess ⟨7/20, 256, 320⟩ 480 640 [⟨0, 1, 1/5, 10, 20, 100, 200⟩] = ([], []) :=
  C6_empty_is_valid ⟨7/20, 256, 320⟩ 480 640 [⟨0, 1, 1/5, 10, 20, 100, 200⟩] (by
    intro r hr
    rw [List.mem_singleton] at hr
    subst hr
    norm_num)

/-- C7: raising the threshold never increases the number of surviving
detections for the same raw output tensor. -/
theorem C7_threshold_monotone (t1 t2 Hm Wm : ℚ) (ih iw : ℕ)
    (boxes : List RawRow) (h : t1 ≤ t2) :
    ((_postprocess ⟨t2, Hm, Wm⟩ ih iw boxes).1).length ≤
      ((_postprocess ⟨t1, Hm, Wm⟩ ih iw boxes).1).length := by
  rw [postprocess_filter_map, postprocess_filter_map]
  simp only [List.length_map, ← List.countP_eq_length_filter]
  apply List.countP_mono_left
  intro r _ hr
  simp only [keepRow, decide_eq_true_eq] at hr ⊢
  exact lt_of_le_of_lt h hr

/-- C7 witness: thresholds 0.3 ≤ 0.5 on rows scoring 0.4 and 0.9. -/
theorem C7_threshold_monotone_witness :
    ((_postprocess ⟨1/2, 256, 320⟩ 480 640
      [⟨0, 0, 2/5, 10, 20, 100, 200⟩, ⟨0, 1, 9/10, 10, 20, 100, 200⟩]).1).length ≤
    ((_postprocess ⟨3/10, 256, 320⟩ 480 640
      [⟨0, 0, 2/5, 10, 20, 100, 200⟩, ⟨0, 1, 9/10, 10, 20, 100, 200⟩]).1).length :=
  C7_threshold_monotone (3/10) (1/2) 256 320 480 640
    [⟨0, 0, 2/5, 10, 20, 100, 200⟩, ⟨0, 1, 9/10, 10, 20, 100, 200⟩] (by norm_num)

/-- C8: the returned boxes and scores are exactly the surviving rows in
their original order: the output lists are images of the order-preserving
`filter` (a sublist of the raw rows), and no reordering by confidence
happens; determinism is immediate since `_postprocess` is a function. -/
theorem C8_insertion_order (cfg : YOLOXConfig) (ih iw : ℕ) (boxes : List RawRow) :
    (_postprocess cfg ih iw boxes).1 =
      (boxes.filter (keepRow cfg)).map (scaleRow cfg ih iw) ∧
    (_postprocess cfg ih iw boxes).2 =
      (boxes.filter (keepRow cfg)).map RawRow.score ∧
    (boxes.filter (keepRow cfg)).Sublist boxes := by
  refine ⟨?_, ?_, List.filter_sublist boxes⟩ <;> rw [postprocess_filter_map]

/-- C9: the pipeline's `__call__` never mutates the caller's image: the
caller's buffer after the call is the buffer passed in (the body
deep-copies the frame and only reads the copy). -/
theorem C9_image_read_only (cfg : YOLOXConfig)
    (session_run : Image → List RawRow) (image : Image) :
    (YOLOXONNX_call cfg session_run image).2 = image := rfl

/-- C1 counterexample: for the raw row `[0, 0, 0.9, 330, 20, 340, 200]`
(model input 320×256, image 640×480, threshold 0.35) the returned box is
`[660, 37, 640, 375]`: its `x_min = 660` exceeds both `x_max = 640` and
the image width 640, so the chain
`0 ≤ x_min ≤ x_max ≤ image_width` claimed by the spec fails — the code
clamps `x1` only from below and `x2` only from above. -/
theorem C1_counterexample :
    (_postprocess ⟨7/20, 256, 320⟩ 480 640 [⟨0, 0, 9/10, 330, 20, 340, 200⟩]).1 =
      [[660, 37, 640, 375, 0]] ∧
    ¬ ((660 : ℤ) ≤ 640) := by
  refine ⟨?_, by norm_num⟩
  rw [postprocess_filter_map]
  norm_num [keepRow, List.filter_cons, scaleRow, truncQ]

/-- C1 (amended): every returned box satisfies the one-sided bounds
`0 ≤ x_min`, `0 ≤ y_min`, `x_max ≤ image_width`, `y_max ≤ image_height`
whenever the model dimensions are positive; the full two-sided chain of
the original claim does not hold (see the counterexample). Box layout:
index 0 = x_min, 1 = y_min, 2 = x_max, 3 = y_max. -/
theorem C1_amended_bounds (cfg : YOLOXConfig) (ih iw : ℕ)
    (hW : 0 < cfg.Wmodel) (hH : 0 < cfg.Hmodel)
    (boxes : List RawRow) (b : List ℤ)
    (hb : b ∈ (_postprocess cfg ih iw boxes).1) :
    0 ≤ b.getD 0 0 ∧ 0 ≤ b.getD 1 0 ∧
    b.getD 2 0 ≤ (iw : ℤ) ∧ b.getD 3 0 ≤ (ih : ℤ) := by
  rw [postprocess_filter_map] at hb
  simp only [List.mem_map] at hb
  obtain ⟨r, _, rfl⟩ := hb
  exact scaleRow_bounds cfg ih iw hW hH r

/-- C1 witness: the amended bounds at the spec's concrete scenario. -/
theorem C1_amended_bounds_witness :
    0 ≤ ([20, 37, 200, 375, 1] : List ℤ).getD 0 0 ∧
    0 ≤ ([20, 37, 200, 375, 1] : List ℤ).getD 1 0 ∧
    ([20, 37, 200, 375, 1] : List ℤ).getD 2 0 ≤ ((640 : ℕ) : ℤ) ∧
    ([20, 37, 200, 375, 1] : List ℤ).getD 3 0 ≤ ((480 : ℕ) : ℤ) :=
  C1_amended_bounds ⟨7/20, 256, 320⟩ 480 640 (by norm_num) (by norm_num)
    [⟨0, 1, 9/10, 10, 20, 100, 200⟩] [20, 37, 200, 375, 1] (by
      rw [postprocess_filter_map]
      norm_num [keepRow, List.filter_cons, scaleRow, truncQ])

/-- C2 counterexample: on the raw row `[0, 0, 0.9, 400, 20, 100, 200]`
the code returns `x_min = 800` (no upper clamp on `x1`), while the
spec's two-sided clamp `clamp(x1, 0, W_model)` would give `640`. -/
theorem C2_counterexample :
    (_postprocess ⟨7/20, 256, 320⟩ 480 640 [⟨0, 0, 9/10, 400, 20, 100, 200⟩]).1 =
      [[800, 37, 200, 375, 0]] ∧
    spec_scaleRow ⟨7/20, 256, 320⟩ 480 640 ⟨0, 0, 9/10, 400, 20, 100, 200⟩ =
      [640, 37, 200, 375, 0] ∧
    (800 : ℤ) ≠ 640 := by
  refine ⟨?_, ?_, by norm_num⟩
  · rw [postprocess_filter_map]
    norm_num [keepRow, List.filter_cons, scaleRow, truncQ]
  · norm_num [spec_scaleRow, truncQ]

/-- C2 (amended): for every kept row the code clamps each MIN coordinate
only from below by 0 (`max(0, ·)`) and each MAX coordinate only from
above by the model dimension (`min(·, dim)`), then multiplies by
`image_dimension / model_dimension` and truncates toward zero; it does
not apply the two-sided clamp of the original claim. -/
theorem C2_amended_scaling (cfg : YOLOXConfig) (ih iw : ℕ) (boxes : List RawRow) :
    (_postprocess cfg ih iw boxes).1 =
      (boxes.filter (keepRow cfg)).map (fun b =>
        [truncQ (max 0 b.x1 * (iw : ℚ) / cfg.Wmodel),
         truncQ (max 0 b.y1 * (ih : ℚ) / cfg.Hmodel),
         truncQ (min b.x2 cfg.Wmodel * (iw : ℚ) / cfg.Wmodel),
         truncQ (min b.y2 cfg.Hmodel * (ih : ℚ) / cfg.Hmodel),
         truncQ b.classid]) := by
  rw [postprocess_filter_map]
  rfl

/-- C10: under positive model dimensions, the loop body guarantees the
one-sided bounds for every row it scales — `x_min, y_min ≥ 0` because
only the lower clamp `max(0, ·)` is applied to the min coordinates, and
`x_max ≤ image_width`, `y_max ≤ image_height` because only the upper
clamp `min(·, model_dim)` is applied to the max coordinates. -/
theorem C10_one_sided_clamps (cfg : YOLOXConfig) (ih iw : ℕ)
    (hW : 0 < cfg.Wmodel) (hH : 0 < cfg.Hmodel) (b : RawRow) :
    0 ≤ (scaleRow cfg ih iw b).getD 0 0 ∧
    0 ≤ (scaleRow cfg ih iw b).getD 1 0 ∧
    (scaleRow cfg ih iw b).getD 2 0 ≤ (iw : ℤ) ∧
    (scaleRow cfg ih iw b).getD 3 0 ≤ (ih : ℤ) :=
  scaleRow_bounds cfg ih iw hW hH b

/-- C10 witness: the one-sided bounds at an out-of-range raw row. -/
theorem C10_one_sided_clamps_witness :
    0 ≤ (scaleRow ⟨7/20, 256, 320⟩ 480 640 ⟨0, 0, 9/10, 330, 20, 340, 200⟩).getD 0 0 ∧
    0 ≤ (scaleRow ⟨7/20, 256, 320⟩ 480 640 ⟨0, 0, 9/10, 330, 20, 340, 200⟩).getD 1 0 ∧
    (scaleRow ⟨7/20, 256, 320⟩ 480 640 ⟨0, 0, 9/10, 330, 20, 340, 200⟩).getD 2 0 ≤ ((640 : ℕ) : ℤ) ∧
    (scaleRow ⟨7/20, 256, 320⟩ 480 640 ⟨0, 0, 9/10, 330, 20, 340, 200⟩).getD 3 0 ≤ ((480 : ℕ) : ℤ) :=
  C10_one_sided_clamps ⟨7/20, 256, 320⟩ 480 640 (by norm_num) (by norm_num)
    ⟨0, 0, 9/10, 330, 20, 340, 200⟩
